import Mathlib

/-!
Verification of the GreenScreenStudio client against its specification.

The definitions below are a shallow embedding of the frontend source:
`src/frontend/src/components/Previewer/Previewer.tsx` (the Previewer
component), the Timeline component, and the `useCompanionStatus` hook.
JavaScript numbers are modelled as exact rationals; the state updates of
each React component are modelled as explicit step functions over a state
record, with an `enabled` predicate capturing the render-time guards
(disabled buttons, hidden sections) under which each handler can fire.
-/

namespace GreenScreenStudio

/-- Chroma-key settings (Previewer.tsx, `interface ChromaKeySettings`). -/
structure ChromaKeySettings where
  keyColor : String
  similarity : ℚ
  blend : ℚ
deriving DecidableEq, Repr

/-- Layer transform (Previewer.tsx, `interface Transform`):
position, uniform scale and natural size of a layer. -/
structure Transform where
  x : ℚ
  y : ℚ
  scale : ℚ
  width : ℚ
  height : ℚ
deriving DecidableEq, Repr

/-- Media properties extracted from a file
(Previewer.tsx, `interface MediaProperties`). -/
structure MediaProperties where
  width : ℚ
  height : ℚ
  duration : ℚ
deriving DecidableEq, Repr

/-- Lane process state (Previewer.tsx, `type ProcessState`). -/
inductive ProcessState where
  | idle
  | processing
  | completed
  | failed
deriving DecidableEq, Repr

/-- The export formats offered by the format select
(Previewer.tsx, `useState` for `exportFormat`). -/
inductive OutputFormat where
  | mp4
  | prores
  | webm
  | gif
deriving DecidableEq, Repr

/-- The `useState` initial value of `foregroundTransform` and
`backgroundTransform` in Previewer.tsx. -/
def initialTransform : Transform :=
  { x := 0, y := 0, scale := 1, width := 0, height := 0 }

/-- The `useState` initial value of `settings` in Previewer.tsx:
keyColor `#00ff00`, similarity 0.2, blend 0.1. -/
def initialSettings : ChromaKeySettings :=
  { keyColor := "#00ff00", similarity := 2/10, blend := 1/10 }

/-! ### Initial layer transforms (Previewer.tsx, getInitialFgTransform /
getInitialBgTransform) -/

/-- `getInitialFgTransform` (Previewer.tsx lines 159-181): contain-fit the
source into the fixed 1280×720 logical canvas and center it. -/
def getInitialFgTransform (sourceWidth sourceHeight : ℚ) : Transform :=
  let logicalCanvasWidth : ℚ := 1280
  let logicalCanvasHeight : ℚ := 720
  let scaleX := logicalCanvasWidth / sourceWidth
  let scaleY := logicalCanvasHeight / sourceHeight
  let initialFitScale := min scaleX scaleY
  let scaledWidth := sourceWidth * initialFitScale
  let scaledHeight := sourceHeight * initialFitScale
  { x := (logicalCanvasWidth - scaledWidth) / 2
    y := (logicalCanvasHeight - scaledHeight) / 2
    scale := initialFitScale
    width := sourceWidth
    height := sourceHeight }

/-- `getInitialBgTransform` (Previewer.tsx lines 183-206): cover-fit the
background onto the fixed 1280×720 logical canvas and center it; degenerate
sizes fall back to the identity transform. -/
def getInitialBgTransform (bgWidth bgHeight : ℚ) : Transform :=
  if bgWidth = 0 ∨ bgHeight = 0 then
    { x := 0, y := 0, scale := 1, width := 0, height := 0 }
  else
    let logicalCanvasWidth : ℚ := 1280
    let logicalCanvasHeight : ℚ := 720
    let scaleX := logicalCanvasWidth / bgWidth
    let scaleY := logicalCanvasHeight / bgHeight
    let coverScale := max scaleX scaleY
    let scaledWidth := bgWidth * coverScale
    let scaledHeight := bgHeight * coverScale
    { x := (logicalCanvasWidth - scaledWidth) / 2
      y := (logicalCanvasHeight - scaledHeight) / 2
      scale := coverScale
      width := bgWidth
      height := bgHeight }

/-! ### Upload path (Previewer.tsx, upload useEffect lines 289-320) -/

/-- The inputs the upload effect depends on: the selected files (modelled by
their names), their extracted properties, and the transparent-mode flag. -/
structure UploadInputs where
  sourceVideoFile : Option String
  sourceInfo : Option MediaProperties
  backgroundFile : Option String
  backgroundInfo : Option MediaProperties
  isTransparentMode : Bool
deriving DecidableEq, Repr

/-- `canStartSession` (Previewer.tsx line 291): the upload fires exactly when
a source video with properties is present and either transparent mode is on
or a background file with properties is present. -/
def canStartSession (u : UploadInputs) : Bool :=
  u.sourceVideoFile.isSome && u.sourceInfo.isSome &&
    (u.isTransparentMode || (u.backgroundFile.isSome && u.backgroundInfo.isSome))

/-- The multipart field names appended to the `FormData` sent to
`/api/process` (Previewer.tsx lines 296-303): `sourceVideo`,
`sourceProperties` and `isTransparent` always; `background` and
`backgroundProperties` only when not in transparent mode and a background
file with properties is selected. -/
def uploadFormFields (u : UploadInputs) : List String :=
  ["sourceVideo", "sourceProperties", "isTransparent"] ++
    (if !u.isTransparentMode && u.backgroundFile.isSome && u.backgroundInfo.isSome then
      ["background", "backgroundProperties"]
    else [])

/-- The upload request actually issued by the effect: `some` form fields when
`canStartSession` holds, `none` otherwise. -/
def uploadRequest (u : UploadInputs) : Option (List String) :=
  if canStartSession u then some (uploadFormFields u) else none

/-! ### Export request (Previewer.tsx, handleExport lines 445-471) -/

/-- The JSON body POSTed to `/api/export/{jobId}` (the `exportSettings`
object literal in `handleExport`). -/
structure ExportSettings where
  keyColor : String
  similarity : ℚ
  blend : ℚ
  format : OutputFormat
  transparent : Bool
  isKeyingEnabled : Bool
  resolution : String
  loop : String
  startTime : ℚ
  endTime : ℚ
  foreground : Transform
  background : Transform
deriving DecidableEq, Repr

/-- `exportSettings` as built by `handleExport` (Previewer.tsx lines
451-461): the format field is `prores` when `isTransparentMode` is set,
otherwise the client-selected `exportFormat`. -/
def buildExportSettings (settings : ChromaKeySettings) (isTransparentMode : Bool)
    (exportFormat : OutputFormat) (isKeyingEnabled : Bool) (resolution loop : String)
    (startTime endTime : ℚ) (fg bg : Transform) : ExportSettings :=
  { keyColor := settings.keyColor
    similarity := settings.similarity
    blend := settings.blend
    format := if isTransparentMode then OutputFormat.prores else exportFormat
    transparent := isTransparentMode
    isKeyingEnabled := isKeyingEnabled
    resolution := resolution
    loop := loop
    startTime := startTime
    endTime := endTime
    foreground := fg
    background := bg }

/-! ### Live-preview update message (Previewer.tsx, requestPreviewUpdate
lines 322-337) -/

/-- The `settings` payload of a WebSocket `update` message. -/
structure PreviewUpdateSettings where
  keyColor : String
  similarity : ℚ
  blend : ℚ
  resolution : String
  timestamp : Option ℚ
  foreground : Transform
  background : Transform
  isKeyingEnabled : Bool
  isPreviewingColorPick : Bool
deriving DecidableEq, Repr

/-- A client→server WebSocket message `{ type: "update", settings }`. -/
structure WsUpdateMessage where
  type : String
  settings : PreviewUpdateSettings
deriving DecidableEq, Repr

/-- `requestPreviewUpdate` (Previewer.tsx lines 322-337): sends an `update`
message when the socket is open and a job id is bound; the
`isPreviewingColorPick` field is the current `isPickingColor` flag. -/
def requestPreviewUpdate (wsOpen : Bool) (jobId : Option String)
    (debouncedSettings : ChromaKeySettings) (resolution : String)
    (debouncedFgTransform debouncedBgTransform : Transform)
    (isKeyingEnabled isPickingColor : Bool) (timestamp : Option ℚ) :
    Option WsUpdateMessage :=
  if wsOpen && jobId.isSome then
    some
      { type := "update"
        settings :=
          { keyColor := debouncedSettings.keyColor
            similarity := debouncedSettings.similarity
            blend := debouncedSettings.blend
            resolution := resolution
            timestamp := timestamp
            foreground := debouncedFgTransform
            background := debouncedBgTransform
            isKeyingEnabled := isKeyingEnabled
            isPreviewingColorPick := isPickingColor } }
  else none

/-! ### Timeline trim machine (Timeline component, src/unnamed/part_003) -/

namespace Timeline

/-- The Timeline component's state: trim handles and scrubber position
(part_003 lines 21-23), with `endTime` initialized to the duration by the
effect on lines 26-28. -/
structure State where
  startTime : ℚ
  endTime : ℚ
  scrubberPosition : ℚ
deriving DecidableEq, Repr

/-- The state after mount once the `setEndTime(duration)` effect has run:
`startTime = 0`, `endTime = duration`, scrubber at 0. -/
def initState (duration : ℚ) : State :=
  { startTime := 0, endTime := duration, scrubberPosition := 0 }

/-- Which handle a mouse-move drag targets (`isDragging` values). -/
inductive Handle where
  | hstart
  | hend
  | hscrub
deriving DecidableEq, Repr

/-- `handleMouseMove` (part_003 lines 42-59): the mouse time is clamped to
`[0, duration]`; dragging the start handle sets `startTime` to
`min(newTime, endTime)`; dragging the end handle sets `endTime` to
`max(newTime, startTime)`; dragging the scrubber moves it. -/
def handleMouseMove (duration : ℚ) (s : State) (isDragging : Handle) (mouseTime : ℚ) :
    State :=
  let newTime := max 0 (min duration mouseTime)
  match isDragging with
  | Handle.hstart => { s with startTime := min newTime s.endTime }
  | Handle.hend => { s with endTime := max newTime s.startTime }
  | Handle.hscrub => { s with scrubberPosition := newTime }

/-- A sequence of drag operations applied in order. -/
def runDrags (duration : ℚ) (s : State) (ops : List (Handle × ℚ)) : State :=
  ops.foldl (fun st op => handleMouseMove duration st op.1 op.2) s

end Timeline

/-! ### Companion status machine (useCompanionStatus.ts) -/

namespace Companion

/-- `CompanionStatus` (useCompanionStatus.ts line 3). -/
inductive CompanionStatus where
  | connected
  | disconnected
deriving DecidableEq, Repr

/-- `FAILURE_THRESHOLD` (useCompanionStatus.ts line 7). -/
def FAILURE_THRESHOLD : ℕ := 2

/-- The hook's state: the published status and the consecutive-failure
counter held in `failureCountRef`. -/
structure State where
  status : CompanionStatus
  failureCount : ℕ
deriving DecidableEq, Repr

/-- Hook state at mount (useCompanionStatus.ts lines 10-12):
`disconnected` with a zero failure count. -/
def initState : State :=
  { status := CompanionStatus.disconnected, failureCount := 0 }

/-- One run of `checkStatus` (useCompanionStatus.ts lines 15-39), where `ok`
records whether the health fetch returned HTTP ok with JSON status `ok`:
success resets the counter and publishes `connected`; failure increments the
counter; afterwards, a counter at or above `FAILURE_THRESHOLD` publishes
`disconnected`. -/
def checkStatus (s : State) (ok : Bool) : State :=
  let s1 :=
    if ok then { status := CompanionStatus.connected, failureCount := 0 }
    else { s with failureCount := s.failureCount + 1 }
  if FAILURE_THRESHOLD ≤ s1.failureCount then
    { s1 with status := CompanionStatus.disconnected }
  else s1

/-- The hook state after a sequence of poll outcomes, oldest first. -/
def runPolls (polls : List Bool) : State :=
  polls.foldl checkStatus initState

/-- The number of failed polls since the last successful one: the length of
the trailing run of `false` entries. -/
def trailingFailures (polls : List Bool) : ℕ :=
  (polls.reverse.takeWhile (fun b => !b)).length

end Companion

/-! ### Keying settings machine (Previewer.tsx, section "2. Adjust Keying") -/

namespace Keying

/-- A user interaction with the keying controls. The range inputs carry the
parsed float of the input's value; the browser clamps a range input's value
to its `min`/`max` attributes, so the events are guarded by the attribute
bounds of the similarity slider (min 0.01, max 0.8, line 928) and the blend
slider (min 0, max 0.5, line 932). The color input and the EyeDropper set
`keyColor` only. -/
inductive Event where
  | setKeyColor (c : String)
  | setSimilarity (v : ℚ)
  | setBlend (v : ℚ)
deriving DecidableEq, Repr

/-- Whether the UI can deliver the event: range-input values lie within the
slider's `min`/`max` attributes. -/
def enabled : Event → Prop
  | Event.setKeyColor _ => True
  | Event.setSimilarity v => 1/100 ≤ v ∧ v ≤ 8/10
  | Event.setBlend v => 0 ≤ v ∧ v ≤ 5/10

instance : DecidablePred enabled := fun e => by
  cases e <;> simp [enabled] <;> infer_instance

/-- `handleSettingChange` (Previewer.tsx lines 395-399) merged into the
settings record: each control overwrites its own field. -/
def step (s : ChromaKeySettings) : Event → ChromaKeySettings
  | Event.setKeyColor c => { s with keyColor := c }
  | Event.setSimilarity v => { s with similarity := v }
  | Event.setBlend v => { s with blend := v }

/-- The settings states reachable from the initial settings through the
keying controls. -/
inductive Reachable : ChromaKeySettings → Prop where
  | init : Reachable initialSettings
  | step {s e} : Reachable s → enabled e → Reachable (step s e)

end Keying

/-! ### Undo/redo history machine (Previewer.tsx, pushHistory /
handleKeyDown / initial-history effect) -/

namespace Hist

/-- One history entry `{ fg, bg }` (Previewer.tsx line 101). -/
structure Entry where
  fg : Transform
  bg : Transform
deriving DecidableEq, Repr

/-- The transform-history slice of the Previewer state: the history stack,
the current index, and the current foreground/background transforms. -/
structure State where
  history : List Entry
  historyIndex : ℤ
  fg : Transform
  bg : Transform
deriving DecidableEq, Repr

/-- JavaScript array indexing `history[i]`; on the reachable states below
the index is always in bounds, so the default entry is never produced. -/
def histGet (h : List Entry) (i : ℤ) : Entry :=
  (h.get? i.toNat).getD { fg := initialTransform, bg := initialTransform }

/-- The initial-history effect (Previewer.tsx lines 273-286): when source
properties arrive, the transforms are set and the history becomes the
one-entry stack with index 0. -/
def initState (fg bg : Transform) : State :=
  { history := [{ fg := fg, bg := bg }], historyIndex := 0, fg := fg, bg := bg }

/-- `pushHistory` (Previewer.tsx lines 555-560) together with the caller
setting the same pair as the current transforms (handleNodeDragEnd,
handleTransformEnd, handleResetTransform): truncate any redo tail after
`historyIndex`, append the new entry, and point the index at the last
entry. -/
def pushHistory (s : State) (fg bg : Transform) : State :=
  let newHistory := s.history.take (s.historyIndex + 1).toNat ++ [{ fg := fg, bg := bg }]
  { history := newHistory
    historyIndex := (newHistory.length : ℤ) - 1
    fg := fg
    bg := bg }

/-- Undo (Previewer.tsx lines 686-694): when `historyIndex > 0`, step the
index back and restore the recorded transforms; otherwise do nothing. -/
def undo (s : State) : State :=
  if 0 < s.historyIndex then
    let newIndex := s.historyIndex - 1
    let prevState := histGet s.history newIndex
    { s with historyIndex := newIndex, fg := prevState.fg, bg := prevState.bg }
  else s

/-- Redo (Previewer.tsx lines 695-704): when
`historyIndex < history.length - 1`, step the index forward and restore the
recorded transforms; otherwise do nothing. -/
def redo (s : State) : State :=
  if s.historyIndex < (s.history.length : ℤ) - 1 then
    let newIndex := s.historyIndex + 1
    let nextState := histGet s.history newIndex
    { s with historyIndex := newIndex, fg := nextState.fg, bg := nextState.bg }
  else s

/-- History states reachable once the history has been initialized: the
initial one-entry stack, pushes, undos and redos (re-initialization on a
new source file starts another `initState`, also covered by `init`). -/
inductive Reachable : State → Prop where
  | init (fg bg : Transform) : Reachable (initState fg bg)
  | push {s} (fg bg : Transform) : Reachable s → Reachable (pushHistory s fg bg)
  | undo {s} : Reachable s → Reachable (undo s)
  | redo {s} : Reachable s → Reachable (redo s)

end Hist

/-! ### Export / preview-clip lane machine (Previewer.tsx) -/

namespace Lanes

/-- `lastActionRef` values (Previewer.tsx line 116). -/
inductive LaneAction where
  | preview
  | exportLane
deriving DecidableEq, Repr

/-- Job status values returned by `GET /api/status/{jobId}` and branched on
by the polling effect (Previewer.tsx lines 484-509). -/
inductive PollStatus where
  | processing
  | preview_processing
  | completed
  | preview_completed
  | failed
deriving DecidableEq, Repr

/-- The slice of the Previewer state driving the two lanes. -/
structure State where
  isUploading : Bool
  isReadyForPreview : Bool
  isPreviewModeActive : Bool
  exportState : ProcessState
  previewGenState : ProcessState
  exportProgress : ℚ
  previewProgress : ℚ
  lastAction : Option LaneAction
deriving DecidableEq, Repr

/-- Component state at mount: everything idle (Previewer.tsx `useState`
initial values, lines 81-116). -/
def initState : State :=
  { isUploading := false
    isReadyForPreview := false
    isPreviewModeActive := false
    exportState := ProcessState.idle
    previewGenState := ProcessState.idle
    exportProgress := 0
    previewProgress := 0
    lastAction := none }

/-- `isProcessing` (Previewer.tsx line 754). -/
def isProcessing (s : State) : Bool :=
  s.isUploading || s.previewGenState == ProcessState.processing ||
    s.exportState == ProcessState.processing

/-- `arePostLoadControlsDisabled` (Previewer.tsx line 755). -/
def arePostLoadControlsDisabled (s : State) : Bool :=
  !s.isReadyForPreview || isProcessing s || s.isPreviewModeActive

/-- The events that can change the lane slice of the state. -/
inductive Event where
  /-- the Export button or the export Try Again button fires `handleExport` -/
  | exportClick
  /-- Generate Preview or its Try Again button fires `handleProcessPreview` -/
  | previewClick
  /-- the `fetch` in `handleExport` rejects or returns non-ok -/
  | exportFetchFailed
  /-- the `fetch` in `handleProcessPreview` rejects or returns non-ok -/
  | previewFetchFailed
  /-- a status poll returns `{ status, progress }` -/
  | poll (st : PollStatus) (progress : ℚ)
  /-- a status poll throws (network / non-ok response) -/
  | pollError
  /-- the Start New Export button fires `resetExport` -/
  | resetExportClick
  /-- the Back to Editor button fires `handleExitPreviewMode` -/
  | exitPreviewClick
  /-- new files are selected: `resetStateForNewJob` runs and the upload
  starts (upload useEffect, lines 289-320) -/
  | uploadStart
  /-- the upload fetch settles; `ok` is whether it succeeded -/
  | uploadDone (ok : Bool)
deriving DecidableEq, Repr

/-- Whether the UI or an active effect can deliver the event, read off the
render-time guards: `CollapsibleSection` hides its content when disabled,
the section and button `disabled` flags use `arePostLoadControlsDisabled`
and `isProcessing`, the polling effect runs only while a lane is
`processing`, and the file inputs and transparent-mode checkbox are disabled
while processing or in preview mode. -/
def enabled (s : State) : Event → Bool
  | Event.exportClick =>
      (s.exportState == ProcessState.idle || s.exportState == ProcessState.failed) &&
        !arePostLoadControlsDisabled s
  | Event.previewClick =>
      (s.previewGenState == ProcessState.idle || s.previewGenState == ProcessState.failed) &&
        s.isReadyForPreview && !isProcessing s && !s.isPreviewModeActive
  | Event.exportFetchFailed => s.exportState == ProcessState.processing
  | Event.previewFetchFailed => s.previewGenState == ProcessState.processing
  | Event.poll _ _ =>
      s.previewGenState == ProcessState.processing ||
        s.exportState == ProcessState.processing
  | Event.pollError =>
      s.previewGenState == ProcessState.processing ||
        s.exportState == ProcessState.processing
  | Event.resetExportClick =>
      s.exportState == ProcessState.completed && !arePostLoadControlsDisabled s
  | Event.exitPreviewClick => s.isPreviewModeActive
  | Event.uploadStart => !isProcessing s && !s.isPreviewModeActive
  | Event.uploadDone _ => s.isUploading

/-- `resetStateForNewJob` (Previewer.tsx lines 208-222), restricted to the
lane slice. -/
def resetStateForNewJob (s : State) : State :=
  { s with
    isReadyForPreview := false
    exportState := ProcessState.idle
    exportProgress := 0
    isPreviewModeActive := false
    previewGenState := ProcessState.idle
    lastAction := none }

/-- The state update each event performs, transcribed from `handleExport`
(445-471), `handleProcessPreview` (412-437), the polling effect (473-523),
`resetExport` (224-228), `handleExitPreviewMode` (439-443) and the upload
effect (289-320). -/
def step (s : State) : Event → State
  | Event.exportClick =>
      { s with
        exportState := ProcessState.processing
        exportProgress := 0
        lastAction := some LaneAction.exportLane }
  | Event.previewClick =>
      { s with
        previewGenState := ProcessState.processing
        previewProgress := 0
        lastAction := some LaneAction.preview }
  | Event.exportFetchFailed => { s with exportState := ProcessState.failed }
  | Event.previewFetchFailed => { s with previewGenState := ProcessState.failed }
  | Event.poll st p =>
      match st with
      | PollStatus.completed =>
          { s with exportState := ProcessState.completed, exportProgress := 100 }
      | PollStatus.preview_completed =>
          { s with
            previewGenState := ProcessState.idle
            previewProgress := 100
            isPreviewModeActive := true }
      | PollStatus.failed =>
          match s.lastAction with
          | some LaneAction.exportLane => { s with exportState := ProcessState.failed }
          | some LaneAction.preview => { s with previewGenState := ProcessState.failed }
          | none => s
      | PollStatus.processing =>
          match s.lastAction with
          | some LaneAction.exportLane => { s with exportProgress := p }
          | some LaneAction.preview => { s with previewProgress := p }
          | none => s
      | PollStatus.preview_processing =>
          match s.lastAction with
          | some LaneAction.exportLane => { s with exportProgress := p }
          | some LaneAction.preview => { s with previewProgress := p }
          | none => s
  | Event.pollError =>
      match s.lastAction with
      | some LaneAction.exportLane => { s with exportState := ProcessState.failed }
      | some LaneAction.preview => { s with previewGenState := ProcessState.failed }
      | none => s
  | Event.resetExportClick =>
      { s with exportState := ProcessState.idle, exportProgress := 0 }
  | Event.exitPreviewClick => { s with isPreviewModeActive := false }
  | Event.uploadStart => { resetStateForNewJob s with isUploading := true }
  | Event.uploadDone ok =>
      if ok then { s with isUploading := false, isReadyForPreview := true }
      else { s with isUploading := false }

/-- Modelled from the spec: the server backing `GET /api/status/{jobId}` is
not in the repository; per §4.3 and §6 the job's status during a run of the
export lane is one of `processing`, `completed`, `failed`, and during a run
of the preview lane one of `preview_processing`, `preview_completed`,
`failed`. A poll outcome is consistent when its status belongs to the lane
that was last started. -/
def pollConsistent (s : State) : Event → Bool
  | Event.poll st _ =>
      match s.lastAction with
      | some LaneAction.exportLane =>
          st == PollStatus.processing || st == PollStatus.completed ||
            st == PollStatus.failed
      | some LaneAction.preview =>
          st == PollStatus.preview_processing || st == PollStatus.preview_completed ||
            st == PollStatus.failed
      | none => true
  | _ => true

/-- Client states reachable from mount through UI-deliverable events with
lane-consistent server responses. -/
inductive Reachable : State → Prop where
  | init : Reachable initState
  | step {s e} : Reachable s → enabled s e = true → pollConsistent s e = true →
      Reachable (step s e)

/-- Modelled from the spec: the Job Controller's lane arbiter (server code
not in the repository; spec §4.3/§4.4): a request to start a lane while a
lane is active is rejected with a `Conflict` error, otherwise the requested
lane starts. -/
inductive LaneStartResult where
  | started (lane : LaneAction)
  | conflict
deriving DecidableEq, Repr

/-- Modelled from the spec: arbitration of a lane-start request against the
currently active lane (spec §4.3: "a request for the other lane while one is
active is rejected with a `Conflict` error"). -/
def startLane (active : Option LaneAction) (request : LaneAction) : LaneStartResult :=
  match active with
  | some _ => LaneStartResult.conflict
  | none => LaneStartResult.started request

end Lanes

/-! ### Invariants and auxiliary predicates -/

/-- The trim invariant of the Timeline: `0 ≤ startTime ≤ endTime ≤ duration`. -/
def TrimInv (duration : ℚ) (s : Timeline.State) : Prop :=
  0 ≤ s.startTime ∧ s.startTime ≤ s.endTime ∧ s.endTime ≤ duration

/-- The combined lane invariant: the two lanes are never both processing,
and a processing lane is the lane recorded in `lastActionRef`. -/
def LanesInv (s : Lanes.State) : Prop :=
  ¬(s.exportState = ProcessState.processing ∧ s.previewGenState = ProcessState.processing)
  ∧ (s.previewGenState = ProcessState.processing → s.lastAction = some Lanes.LaneAction.preview)
  ∧ (s.exportState = ProcessState.processing → s.lastAction = some Lanes.LaneAction.exportLane)

/-- The history invariant: the index is in bounds and the current transforms
are the entry it points at. -/
def HistInv (s : Hist.State) : Prop :=
  0 ≤ s.historyIndex ∧ s.historyIndex < (s.history.length : ℤ)
  ∧ Hist.histGet s.history s.historyIndex = { fg := s.fg, bg := s.bg }

/-- The events that reset the export lane's progress to 0 or clear the lane:
a fresh export start (`handleExport`), the explicit `resetExport`, and a new
upload (`resetStateForNewJob`). -/
def isExportLaneReset : Lanes.Event → Bool
  | Lanes.Event.exportClick => true
  | Lanes.Event.resetExportClick => true
  | Lanes.Event.uploadStart => true
  | _ => false

/-- The only event that resets the preview lane's progress to 0: a fresh
preview start (`handleProcessPreview`); `resetStateForNewJob` clears the
lane state but leaves `previewProgress` untouched (Previewer.tsx 208-222). -/
def isPreviewLaneReset : Lanes.Event → Bool
  | Lanes.Event.previewClick => true
  | _ => false

/-! ### Concrete sample values -/

/-- A sample source file name. -/
def sampleSourceName : String := "source.mp4"

/-- A sample background file name. -/
def sampleBackgroundName : String := "bg.png"

/-- Sample extracted media properties: a 10-second 1920×1080 clip. -/
def sampleProps : MediaProperties := { width := 1920, height := 1080, duration := 10 }

/-- A transparent-mode upload with no background file selected. -/
def sampleTransparentUpload : UploadInputs :=
  { sourceVideoFile := some sampleSourceName
    sourceInfo := some sampleProps
    backgroundFile := none
    backgroundInfo := none
    isTransparentMode := true }

/-- A composite (non-transparent) upload with a background file. -/
def sampleCompositeUpload : UploadInputs :=
  { sourceVideoFile := some sampleSourceName
    sourceInfo := some sampleProps
    backgroundFile := some sampleBackgroundName
    backgroundInfo := some sampleProps
    isTransparentMode := false }

/-- The default resolution selection. -/
def sampleResolution : String := "720p"

/-- The default looping selection. -/
def sampleLoop : String := "none"

/-- A sample job identifier. -/
def sampleJobId : String := "job-1"

/-- The client state after an upload completes and the user clicks Export:
the export lane is processing. -/
def sampleLaneRun : Lanes.State :=
  Lanes.step (Lanes.step (Lanes.step Lanes.initState Lanes.Event.uploadStart)
    (Lanes.Event.uploadDone true)) Lanes.Event.exportClick

/-- A history state after one transform edit: initialize, then push the
contain-fit of a 1920×1080 source. -/
def sampleHistState : Hist.State :=
  Hist.pushHistory (Hist.initState initialTransform initialTransform)
    (getInitialFgTransform 1920 1080) initialTransform

/-- The `update` message produced when a color pick is pending. -/
def sampleUpdateMessage : WsUpdateMessage :=
  { type := "update"
    settings :=
      { keyColor := initialSettings.keyColor
        similarity := initialSettings.similarity
        blend := initialSettings.blend
        resolution := sampleResolution
        timestamp := none
        foreground := initialTransform
        background := initialTransform
        isKeyingEnabled := true
        isPreviewingColorPick := true } }

/-! ## Theorems -/

/-- C1: whenever the transparent-mode flag is set, the format field the
client submits to the export endpoint is the alpha-capable `prores` format,
regardless of the client-selected `exportFormat`, and the upload path
accepts a session with no background file. -/
theorem transparent_export_forces_prores (settings : ChromaKeySettings)
    (exportFormat : OutputFormat) (keying : Bool) (resolution loop : String)
    (startTime endTime : ℚ) (fg bg : Transform) (u : UploadInputs)
    (htrans : u.isTransparentMode = true)
    (hsrc : u.sourceVideoFile.isSome = true)
    (hinfo : u.sourceInfo.isSome = true) :
    (buildExportSettings settings u.isTransparentMode exportFormat keying resolution loop
        startTime endTime fg bg).format = OutputFormat.prores
    ∧ canStartSession u = true := by
  constructor
  · simp [buildExportSettings, htrans]
  · simp [canStartSession, hsrc, hinfo, htrans]

/-- Witness for C1: a concrete transparent-mode upload with no background,
exporting with the client-selected format `mp4`. -/
theorem transparent_export_forces_prores_witness :
    sampleTransparentUpload.isTransparentMode = true
    ∧ sampleTransparentUpload.sourceVideoFile.isSome = true
    ∧ sampleTransparentUpload.sourceInfo.isSome = true
    ∧ ((buildExportSettings initialSettings sampleTransparentUpload.isTransparentMode
          OutputFormat.mp4 true sampleResolution sampleLoop 0 10 initialTransform
          initialTransform).format = OutputFormat.prores
        ∧ canStartSession sampleTransparentUpload = true) :=
  ⟨rfl, rfl, rfl,
    transparent_export_forces_prores initialSettings OutputFormat.mp4 true
      sampleResolution sampleLoop 0 10 initialTransform initialTransform
      sampleTransparentUpload rfl rfl rfl⟩

/-- C6: the upload request is issued exactly when a source video with
properties is present and either transparent mode is on or a background with
properties is present; when issued, the multipart body always carries
`sourceVideo` and `sourceProperties`, and carries `background` and
`backgroundProperties` exactly when not in transparent mode. -/
theorem upload_request_fields (u : UploadInputs) (h : canStartSession u = true) :
    uploadRequest u = some (uploadFormFields u)
    ∧ "sourceVideo" ∈ uploadFormFields u
    ∧ "sourceProperties" ∈ uploadFormFields u
    ∧ (("background" ∈ uploadFormFields u ∧ "backgroundProperties" ∈ uploadFormFields u)
        ↔ u.isTransparentMode = false)
    ∧ (∀ v : UploadInputs, uploadRequest v ≠ none ↔
        (v.sourceVideoFile.isSome = true ∧ v.sourceInfo.isSome = true ∧
          (v.isTransparentMode = true ∨
            (v.backgroundFile.isSome = true ∧ v.backgroundInfo.isSome = true)))) := by
  refine ⟨by simp [uploadRequest, h], ?_, ?_, ?_, ?_⟩
  · cases hm : u.isTransparentMode <;> simp [uploadFormFields, hm]
  · cases hm : u.isTransparentMode <;> simp [uploadFormFields, hm]
  · cases hm : u.isTransparentMode with
    | true => simp [uploadFormFields, hm]
    | false =>
        simp only [canStartSession, hm, Bool.false_or, Bool.and_eq_true] at h
        simp [uploadFormFields, hm, h.2.1, h.2.2]
  · intro v
    constructor
    · intro hne
      cases hv : canStartSession v with
      | false => simp [uploadRequest, hv] at hne
      | true =>
          simp only [canStartSession, Bool.and_eq_true, Bool.or_eq_true] at hv
          exact ⟨hv.1.1, hv.1.2, hv.2⟩
    · intro hv
      have hcs : canStartSession v = true := by
        simp only [canStartSession, Bool.and_eq_true, Bool.or_eq_true]
        exact ⟨⟨hv.1, hv.2.1⟩, hv.2.2⟩
      simp [uploadRequest, hcs]

/-- Witness for C6: the concrete composite upload carries the background
fields; the transparent upload is also accepted. -/
theorem upload_request_fields_witness :
    canStartSession sampleCompositeUpload = true
    ∧ (uploadRequest sampleCompositeUpload = some (uploadFormFields sampleCompositeUpload)
      ∧ "sourceVideo" ∈ uploadFormFields sampleCompositeUpload
      ∧ "sourceProperties" ∈ uploadFormFields sampleCompositeUpload
      ∧ (("background" ∈ uploadFormFields sampleCompositeUpload
            ∧ "backgroundProperties" ∈ uploadFormFields sampleCompositeUpload)
          ↔ sampleCompositeUpload.isTransparentMode = false)
      ∧ (∀ v : UploadInputs, uploadRequest v ≠ none ↔
          (v.sourceVideoFile.isSome = true ∧ v.sourceInfo.isSome = true ∧
            (v.isTransparentMode = true ∨
              (v.backgroundFile.isSome = true ∧ v.backgroundInfo.isSome = true))))) :=
  ⟨rfl, upload_request_fields sampleCompositeUpload rfl⟩

/-- C7: for every source of positive size (w, h), the initial foreground
transform contain-fits the source into the fixed 1280×720 logical canvas
with scale `min (1280/w) (720/h)`, centered (the scaled box's center is the
canvas center (640, 360)) and fitting inside the canvas; the initial
background transform cover-fits with scale `max (1280/w) (720/h)`, centered
and covering the whole canvas. -/
theorem initial_transforms_logical_canvas (w h : ℚ) (hw : 0 < w) (hh : 0 < h) :
    ((getInitialFgTransform w h).scale = min (1280 / w) (720 / h)
      ∧ (getInitialFgTransform w h).x + w * (getInitialFgTransform w h).scale / 2 = 640
      ∧ (getInitialFgTransform w h).y + h * (getInitialFgTransform w h).scale / 2 = 360
      ∧ w * (getInitialFgTransform w h).scale ≤ 1280
      ∧ h * (getInitialFgTransform w h).scale ≤ 720)
    ∧ ((getInitialBgTransform w h).scale = max (1280 / w) (720 / h)
      ∧ (getInitialBgTransform w h).x + w * (getInitialBgTransform w h).scale / 2 = 640
      ∧ (getInitialBgTransform w h).y + h * (getInitialBgTransform w h).scale / 2 = 360
      ∧ 1280 ≤ w * (getInitialBgTransform w h).scale
      ∧ 720 ≤ h * (getInitialBgTransform w h).scale) := by
  have hwne : w ≠ 0 := ne_of_gt hw
  have hhne : h ≠ 0 := ne_of_gt hh
  have hwdiv : w * (1280 / w) = 1280 := by field_simp
  have hhdiv : h * (720 / h) = 720 := by field_simp
  have hcond : ¬(w = 0 ∨ h = 0) := by
    push_neg
    exact ⟨hwne, hhne⟩
  have hbg : getInitialBgTransform w h =
      { x := (1280 - w * max (1280 / w) (720 / h)) / 2
        y := (720 - h * max (1280 / w) (720 / h)) / 2
        scale := max (1280 / w) (720 / h)
        width := w
        height := h } := by
    rw [getInitialBgTransform, if_neg hcond]
  have hfg : getInitialFgTransform w h =
      { x := (1280 - w * min (1280 / w) (720 / h)) / 2
        y := (720 - h * min (1280 / w) (720 / h)) / 2
        scale := min (1280 / w) (720 / h)
        width := w
        height := h } := rfl
  rw [hfg, hbg]
  refine ⟨⟨rfl, by ring, by ring, ?_, ?_⟩, rfl, by ring, by ring, ?_, ?_⟩
  · calc w * min (1280 / w) (720 / h) ≤ w * (1280 / w) :=
          mul_le_mul_of_nonneg_left (min_le_left _ _) hw.le
      _ = 1280 := hwdiv
  · calc h * min (1280 / w) (720 / h) ≤ h * (720 / h) :=
          mul_le_mul_of_nonneg_left (min_le_right _ _) hh.le
      _ = 720 := hhdiv
  · calc (1280 : ℚ) = w * (1280 / w) := hwdiv.symm
      _ ≤ w * max (1280 / w) (720 / h) :=
          mul_le_mul_of_nonneg_left (le_max_left _ _) hw.le
  · calc (720 : ℚ) = h * (720 / h) := hhdiv.symm
      _ ≤ h * max (1280 / w) (720 / h) :=
          mul_le_mul_of_nonneg_left (le_max_right _ _) hh.le

/-- Witness for C7 at a 1920×1080 source: the contain scale is 2/3 and the
cover scale is 2/3 as well (16:9 matches the canvas). -/
theorem initial_transforms_logical_canvas_witness :
    (0 : ℚ) < 1920 ∧ (0 : ℚ) < 1080
    ∧ (((getInitialFgTransform 1920 1080).scale = min (1280 / 1920) (720 / 1080)
        ∧ (getInitialFgTransform 1920 1080).x
            + 1920 * (getInitialFgTransform 1920 1080).scale / 2 = 640
        ∧ (getInitialFgTransform 1920 1080).y
            + 1080 * (getInitialFgTransform 1920 1080).scale / 2 = 360
        ∧ 1920 * (getInitialFgTransform 1920 1080).scale ≤ 1280
        ∧ 1080 * (getInitialFgTransform 1920 1080).scale ≤ 720)
      ∧ ((getInitialBgTransform 1920 1080).scale = max (1280 / 1920) (720 / 1080)
        ∧ (getInitialBgTransform 1920 1080).x
            + 1920 * (getInitialBgTransform 1920 1080).scale / 2 = 640
        ∧ (getInitialBgTransform 1920 1080).y
            + 1080 * (getInitialBgTransform 1920 1080).scale / 2 = 360
        ∧ 1280 ≤ 1920 * (getInitialBgTransform 1920 1080).scale
        ∧ 720 ≤ 1080 * (getInitialBgTransform 1920 1080).scale)) :=
  ⟨by norm_num, by norm_num,
    initial_transforms_logical_canvas 1920 1080 (by norm_num) (by norm_num)⟩

/-- C8: every `update` message actually sent over the preview WebSocket
carries `isPreviewingColorPick = true` exactly when a color pick is pending
(`isPickingColor`), and its type field is `update`. -/
theorem preview_update_color_pick_flag (wsOpen : Bool) (jobId : Option String)
    (ds : ChromaKeySettings) (res : String) (fg bg : Transform)
    (keying picking : Bool) (ts : Option ℚ) (msg : WsUpdateMessage)
    (hmsg : requestPreviewUpdate wsOpen jobId ds res fg bg keying picking ts = some msg) :
    msg.type = "update"
    ∧ (msg.settings.isPreviewingColorPick = true ↔ picking = true) := by
  unfold requestPreviewUpdate at hmsg
  split at hmsg
  · cases hmsg
    exact ⟨rfl, Iff.rfl⟩
  · exact absurd hmsg (by simp)

/-- Witness for C8: a concrete update message sent while a color pick is
pending carries the flag. -/
theorem preview_update_color_pick_flag_witness :
    requestPreviewUpdate true (some sampleJobId) initialSettings sampleResolution
        initialTransform initialTransform true true none = some sampleUpdateMessage
    ∧ (sampleUpdateMessage.type = "update"
      ∧ (sampleUpdateMessage.settings.isPreviewingColorPick = true ↔ true = true)) :=
  ⟨rfl,
    preview_update_color_pick_flag true (some sampleJobId) initialSettings
      sampleResolution initialTransform initialTransform true true none
      sampleUpdateMessage rfl⟩

/-- C3: on every settings state reachable through the keying controls, the
chroma-key parameters satisfy `similarity ∈ [0,1]` and `blend ∈ [0,1]`; the
values the controls can deliver even lie in the tighter ranges `[0.01, 0.8]`
and `[0, 0.5]` set by the sliders' min/max attributes. -/
theorem keying_settings_unit_interval (s : ChromaKeySettings)
    (h : Keying.Reachable s) :
    (0 ≤ s.similarity ∧ s.similarity ≤ 1) ∧ (0 ≤ s.blend ∧ s.blend ≤ 1) := by
  induction h with
  | init =>
      norm_num [initialSettings]
  | step hr he ih =>
      rename_i s0 e
      cases e with
      | setKeyColor c => exact ih
      | setSimilarity v =>
          obtain ⟨h1, h2⟩ := he
          exact ⟨by constructor <;> simp [Keying.step] <;> linarith, ih.2⟩
      | setBlend v =>
          obtain ⟨h1, h2⟩ := he
          exact ⟨ih.1, by constructor <;> simp [Keying.step] <;> linarith⟩

/-- Witness for C3: the state after the user drags similarity to 0.75. -/
theorem keying_settings_unit_interval_witness :
    Keying.Reachable (Keying.step initialSettings (Keying.Event.setSimilarity (75/100)))
    ∧ ((0 ≤ (Keying.step initialSettings (Keying.Event.setSimilarity (75/100))).similarity
        ∧ (Keying.step initialSettings (Keying.Event.setSimilarity (75/100))).similarity ≤ 1)
      ∧ (0 ≤ (Keying.step initialSettings (Keying.Event.setSimilarity (75/100))).blend
        ∧ (Keying.step initialSettings (Keying.Event.setSimilarity (75/100))).blend ≤ 1)) :=
  have hreach : Keying.Reachable
      (Keying.step initialSettings (Keying.Event.setSimilarity (75/100))) :=
    Keying.Reachable.step Keying.Reachable.init (by norm_num [Keying.enabled])
  ⟨hreach, keying_settings_unit_interval _ hreach⟩

/-- One drag step preserves the trim invariant. -/
theorem trimInv_handleMouseMove (d : ℚ) (hd : 0 ≤ d) (s : Timeline.State)
    (hs : TrimInv d s) (hdl : Timeline.Handle) (t : ℚ) :
    TrimInv d (Timeline.handleMouseMove d s hdl t) := by
  obtain ⟨h0, hse, hed⟩ := hs
  have hclamp0 : 0 ≤ max 0 (min d t) := le_max_left _ _
  have hclampd : max 0 (min d t) ≤ d := max_le hd (min_le_left _ _)
  cases hdl with
  | hstart =>
      refine ⟨le_min hclamp0 (le_trans h0 hse), min_le_right _ _, hed⟩
  | hend =>
      exact ⟨h0, le_max_right _ _, max_le hclampd (le_trans hse hed)⟩
  | hscrub =>
      exact ⟨h0, hse, hed⟩

/-- Any sequence of drag steps preserves the trim invariant. -/
theorem trimInv_runDrags (d : ℚ) (hd : 0 ≤ d) (ops : List (Timeline.Handle × ℚ))
    (s : Timeline.State) (hs : TrimInv d s) :
    TrimInv d (Timeline.runDrags d s ops) := by
  induction ops generalizing s with
  | nil => exact hs
  | cons op rest ih =>
      exact ih _ (trimInv_handleMouseMove d hd s hs op.1 op.2)

/-- C4: starting from the mounted Timeline (start 0, end = duration), after
every sequence of trim-handle / scrubber drags with duration `d ≥ 0`, the
invariant `0 ≤ trimStart ≤ trimEnd ≤ d` holds; moreover each drag of the
start handle sets `startTime` to `min(clamp(t,0,d), endTime)` and each drag
of the end handle sets `endTime` to `max(clamp(t,0,d), startTime)`. -/
theorem timeline_trim_invariant (d : ℚ) (hd : 0 ≤ d)
    (ops : List (Timeline.Handle × ℚ)) :
    (0 ≤ (Timeline.runDrags d (Timeline.initState d) ops).startTime
      ∧ (Timeline.runDrags d (Timeline.initState d) ops).startTime
          ≤ (Timeline.runDrags d (Timeline.initState d) ops).endTime
      ∧ (Timeline.runDrags d (Timeline.initState d) ops).endTime ≤ d)
    ∧ (∀ (s : Timeline.State) (t : ℚ),
        (Timeline.handleMouseMove d s Timeline.Handle.hstart t).startTime
            = min (max 0 (min d t)) s.endTime
        ∧ (Timeline.handleMouseMove d s Timeline.Handle.hend t).endTime
            = max (max 0 (min d t)) s.startTime) := by
  constructor
  · exact trimInv_runDrags d hd ops (Timeline.initState d)
      ⟨le_refl 0, hd, le_refl d⟩
  · intro s t
    exact ⟨rfl, rfl⟩

/-- Witness for C4: a 10-second clip with a drag of each handle, including
out-of-range mouse positions. -/
theorem timeline_trim_invariant_witness :
    (0 : ℚ) ≤ 10
    ∧ ((0 ≤ (Timeline.runDrags 10 (Timeline.initState 10)
            [(Timeline.Handle.hstart, 3), (Timeline.Handle.hend, -2),
              (Timeline.Handle.hstart, 20)]).startTime
      ∧ (Timeline.runDrags 10 (Timeline.initState 10)
            [(Timeline.Handle.hstart, 3), (Timeline.Handle.hend, -2),
              (Timeline.Handle.hstart, 20)]).startTime
          ≤ (Timeline.runDrags 10 (Timeline.initState 10)
            [(Timeline.Handle.hstart, 3), (Timeline.Handle.hend, -2),
              (Timeline.Handle.hstart, 20)]).endTime
      ∧ (Timeline.runDrags 10 (Timeline.initState 10)
            [(Timeline.Handle.hstart, 3), (Timeline.Handle.hend, -2),
              (Timeline.Handle.hstart, 20)]).endTime ≤ 10)
    ∧ (∀ (s : Timeline.State) (t : ℚ),
        (Timeline.handleMouseMove 10 s Timeline.Handle.hstart t).startTime
            = min (max 0 (min 10 t)) s.endTime
        ∧ (Timeline.handleMouseMove 10 s Timeline.Handle.hend t).endTime
            = max (max 0 (min 10 t)) s.startTime)) :=
  ⟨by norm_num,
    timeline_trim_invariant 10 (by norm_num)
      [(Timeline.Handle.hstart, 3), (Timeline.Handle.hend, -2),
        (Timeline.Handle.hstart, 20)]⟩

/-- Appending one poll outcome runs one `checkStatus` step. -/
theorem runPolls_concat (l : List Bool) (b : Bool) :
    Companion.runPolls (l ++ [b]) = Companion.checkStatus (Companion.runPolls l) b := by
  simp [Companion.runPolls, List.foldl_append]

/-- A trailing success clears the trailing-failure count. -/
theorem trailingFailures_concat_true (l : List Bool) :
    Companion.trailingFailures (l ++ [true]) = 0 := by
  simp [Companion.trailingFailures]

/-- A trailing failure grows the trailing-failure count by one. -/
theorem trailingFailures_concat_false (l : List Bool) :
    Companion.trailingFailures (l ++ [false]) = Companion.trailingFailures l + 1 := by
  simp [Companion.trailingFailures]

/-- A successful poll publishes `connected` and clears the counter. -/
theorem checkStatus_true (s : Companion.State) :
    Companion.checkStatus s true =
      { status := Companion.CompanionStatus.connected, failureCount := 0 } := rfl

/-- A failed poll increments the counter and publishes `disconnected` once
the counter reaches the threshold. -/
theorem checkStatus_false (s : Companion.State) :
    Companion.checkStatus s false =
      if Companion.FAILURE_THRESHOLD ≤ s.failureCount + 1 then
        { status := Companion.CompanionStatus.disconnected,
          failureCount := s.failureCount + 1 }
      else { status := s.status, failureCount := s.failureCount + 1 } := rfl

/-- The hook's failure counter equals the number of trailing failed polls,
and the status is `connected` exactly when some poll has succeeded and fewer
than `FAILURE_THRESHOLD` polls failed since the last success. -/
theorem companion_run_characterization (l : List Bool) :
    (Companion.runPolls l).failureCount = Companion.trailingFailures l
    ∧ ((Companion.runPolls l).status = Companion.CompanionStatus.connected ↔
        (true ∈ l ∧ Companion.trailingFailures l < Companion.FAILURE_THRESHOLD)) := by
  induction l using List.reverseRecOn with
  | nil =>
      refine ⟨rfl, ?_⟩
      simp [Companion.runPolls, Companion.initState, Companion.trailingFailures]
  | append_singleton l b ih =>
      obtain ⟨ih1, ih2⟩ := ih
      rw [runPolls_concat]
      cases b with
      | true =>
          rw [trailingFailures_concat_true, checkStatus_true]
          exact ⟨rfl, by simp [Companion.FAILURE_THRESHOLD]⟩
      | false =>
          rw [trailingFailures_concat_false, checkStatus_false, ih1]
          by_cases hc : Companion.FAILURE_THRESHOLD ≤ Companion.trailingFailures l + 1
          · rw [if_pos hc]
            refine ⟨rfl, ?_⟩
            constructor
            · intro hcontra
              exact Companion.CompanionStatus.noConfusion hcontra
            · intro hand
              simp only [Companion.FAILURE_THRESHOLD] at hc hand
              omega
          · rw [if_neg hc]
            refine ⟨rfl, ?_⟩
            have htrail : Companion.trailingFailures l = 0 := by
              simp only [Companion.FAILURE_THRESHOLD] at hc
              omega
            show (Companion.runPolls l).status = Companion.CompanionStatus.connected ↔ _
            rw [ih2]
            simp [htrail, Companion.FAILURE_THRESHOLD]

/-- C9: the companion connection starts `disconnected`; a single successful
health poll makes it `connected` and resets the consecutive-failure counter
to 0; the counter equals the number of consecutive trailing failures, and
the status is `connected` exactly when a poll has succeeded and fewer than
`FAILURE_THRESHOLD = 2` polls failed since, so a single failed poll after a
success leaves the status `connected`. -/
theorem companion_status_threshold (polls : List Bool) (s : Companion.State) :
    Companion.initState.status = Companion.CompanionStatus.disconnected
    ∧ Companion.checkStatus s true =
        { status := Companion.CompanionStatus.connected, failureCount := 0 }
    ∧ (Companion.runPolls polls).failureCount = Companion.trailingFailures polls
    ∧ ((Companion.runPolls polls).status = Companion.CompanionStatus.connected ↔
        (true ∈ polls ∧ Companion.trailingFailures polls < Companion.FAILURE_THRESHOLD))
    ∧ (Companion.runPolls (polls ++ [true, false])).status
        = Companion.CompanionStatus.connected := by
  refine ⟨rfl, rfl, (companion_run_characterization polls).1,
    (companion_run_characterization polls).2, ?_⟩
  have hsplit : polls ++ [true, false] = (polls ++ [true]) ++ [false] := by simp
  rw [hsplit]
  rw [(companion_run_characterization ((polls ++ [true]) ++ [false])).2]
  refine ⟨by simp, ?_⟩
  rw [trailingFailures_concat_false, trailingFailures_concat_true]
  simp [Companion.FAILURE_THRESHOLD]

/-- `pushHistory` unfolded to its record form. -/
theorem pushHistory_eq (s : Hist.State) (fg bg : Transform) :
    Hist.pushHistory s fg bg =
      { history := s.history.take (s.historyIndex + 1).toNat
          ++ [({ fg := fg, bg := bg } : Hist.Entry)]
        historyIndex := ((s.history.take (s.historyIndex + 1).toNat
          ++ [({ fg := fg, bg := bg } : Hist.Entry)]).length : ℤ) - 1
        fg := fg
        bg := bg } := rfl

/-- `undo` unfolded on a state with a positive index. -/
theorem undo_pos (s : Hist.State) (hpos : 0 < s.historyIndex) :
    Hist.undo s =
      { history := s.history
        historyIndex := s.historyIndex - 1
        fg := (Hist.histGet s.history (s.historyIndex - 1)).fg
        bg := (Hist.histGet s.history (s.historyIndex - 1)).bg } := by
  unfold Hist.undo
  rw [if_pos hpos]

/-- `redo` unfolded on a state with redo room. -/
theorem redo_pos (s : Hist.State)
    (hroom : s.historyIndex < (s.history.length : ℤ) - 1) :
    Hist.redo s =
      { history := s.history
        historyIndex := s.historyIndex + 1
        fg := (Hist.histGet s.history (s.historyIndex + 1)).fg
        bg := (Hist.histGet s.history (s.historyIndex + 1)).bg } := by
  unfold Hist.redo
  rw [if_pos hroom]

/-- Every reachable history state satisfies the history invariant: the index
is in bounds and the current transforms equal the entry it points at. -/
theorem hist_inv_of_reachable (s : Hist.State) (h : Hist.Reachable s) : HistInv s := by
  induction h with
  | init fg bg =>
      exact ⟨le_refl 0, by norm_num [Hist.initState], rfl⟩
  | push fg bg hr ih =>
      rename_i s0
      rw [pushHistory_eq]
      unfold HistInv
      dsimp only
      have hlen : (s0.history.take (s0.historyIndex + 1).toNat
          ++ [({ fg := fg, bg := bg } : Hist.Entry)]).length
            = (s0.history.take (s0.historyIndex + 1).toNat).length + 1 := by
        simp
      have htoNat : (((s0.history.take (s0.historyIndex + 1).toNat
          ++ [({ fg := fg, bg := bg } : Hist.Entry)]).length : ℤ) - 1).toNat
            = (s0.history.take (s0.historyIndex + 1).toNat).length := by
        rw [hlen]
        omega
      refine ⟨?_, ?_, ?_⟩
      · rw [hlen]
        push_cast
        omega
      · rw [hlen]
        push_cast
        omega
      · unfold Hist.histGet
        rw [htoNat, List.get?_concat_length]
        rfl
  | undo hr ih =>
      rename_i s0
      by_cases hpos : 0 < s0.historyIndex
      · rw [undo_pos s0 hpos]
        obtain ⟨h0, hlt, hget⟩ := ih
        exact ⟨by dsimp only; omega, by dsimp only; omega, rfl⟩
      · have : Hist.undo s0 = s0 := by
          unfold Hist.undo
          rw [if_neg hpos]
        rw [this]
        exact ih
  | redo hr ih =>
      rename_i s0
      by_cases hroom : s0.historyIndex < (s0.history.length : ℤ) - 1
      · rw [redo_pos s0 hroom]
        obtain ⟨h0, hlt, hget⟩ := ih
        exact ⟨by dsimp only; omega, by dsimp only; omega, rfl⟩
      · have : Hist.redo s0 = s0 := by
          unfold Hist.redo
          rw [if_neg hroom]
        rw [this]
        exact ih

/-- C10: on every reachable (initialized) history state the index satisfies
`0 ≤ historyIndex < history.length`; `pushHistory` always leaves
`historyIndex = history.length - 1` (having truncated any redo tail); and
where `historyIndex > 0`, redo after undo restores the state exactly, in
particular the foreground and background transforms. -/
theorem history_index_and_undo_redo (s : Hist.State) (h : Hist.Reachable s) :
    (0 ≤ s.historyIndex ∧ s.historyIndex < (s.history.length : ℤ))
    ∧ (∀ fg bg, (Hist.pushHistory s fg bg).historyIndex
        = ((Hist.pushHistory s fg bg).history.length : ℤ) - 1)
    ∧ (0 < s.historyIndex → Hist.redo (Hist.undo s) = s) := by
  obtain ⟨h0, hlt, hget⟩ := hist_inv_of_reachable s h
  refine ⟨⟨h0, hlt⟩, ?_, ?_⟩
  · intro fg bg
    rfl
  · intro hpos
    rw [undo_pos s hpos]
    rw [redo_pos _ (by dsimp only; omega)]
    dsimp only
    have hidx : s.historyIndex - 1 + 1 = s.historyIndex := by omega
    rw [hidx, hget]

/-- Unpacking `isProcessing s = false`. -/
theorem not_processing_fields {s : Lanes.State} (h : Lanes.isProcessing s = false) :
    s.isUploading = false ∧ s.previewGenState ≠ ProcessState.processing
      ∧ s.exportState ≠ ProcessState.processing := by
  simp only [Lanes.isProcessing, Bool.or_eq_false_iff, beq_eq_false_iff_ne] at h
  exact ⟨h.1.1, h.1.2, h.2⟩

/-- Unpacking `arePostLoadControlsDisabled s = false`. -/
theorem not_disabled_fields {s : Lanes.State}
    (h : Lanes.arePostLoadControlsDisabled s = false) :
    s.isReadyForPreview = true ∧ Lanes.isProcessing s = false
      ∧ s.isPreviewModeActive = false := by
  simp only [Lanes.arePostLoadControlsDisabled, Bool.or_eq_false_iff] at h
  refine ⟨?_, h.1.2, h.2⟩
  have hn := h.1.1
  simpa using hn

/-- Every reachable client state satisfies the lane invariant: the two lanes
are never both processing, and a processing lane matches `lastActionRef`. -/
theorem lanes_inv (s : Lanes.State) (h : Lanes.Reachable s) : LanesInv s := by
  induction h with
  | init =>
      refine ⟨?_, ?_, ?_⟩ <;> simp [Lanes.initState]
  | step hr hen hcon ih =>
      rename_i s0 e
      obtain ⟨ih1, ih2, ih3⟩ := ih
      cases e with
      | exportClick =>
          simp only [Lanes.enabled, Bool.and_eq_true] at hen
          have hnd := not_disabled_fields (by
            have := hen.2
            simpa using this)
          have hnp := not_processing_fields hnd.2.1
          simp only [Lanes.step]
          refine ⟨?_, ?_, ?_⟩
          · intro hand
            exact hnp.2.1 hand.2
          · intro hp
            exact absurd hp hnp.2.1
          · intro _
            rfl
      | previewClick =>
          simp only [Lanes.enabled, Bool.and_eq_true] at hen
          have hnp := not_processing_fields (by
            have hx := hen.1.2
            simpa using hx)
          simp only [Lanes.step]
          refine ⟨?_, ?_, ?_⟩
          · intro hand
            exact hnp.2.2 hand.1
          · intro _
            rfl
          · intro hx
            exact absurd hx hnp.2.2
      | exportFetchFailed =>
          simp only [Lanes.step]
          refine ⟨?_, ?_, ?_⟩
          · intro hand
            exact ProcessState.noConfusion hand.1
          · intro hp
            exact ih2 hp
          · intro hx
            exact ProcessState.noConfusion hx
      | previewFetchFailed =>
          simp only [Lanes.step]
          refine ⟨?_, ?_, ?_⟩
          · intro hand
            exact ProcessState.noConfusion hand.2
          · intro hp
            exact ProcessState.noConfusion hp
          · intro hx
            exact ih3 hx
      | poll st p =>
          cases st with
          | completed =>
              simp only [Lanes.step]
              refine ⟨?_, ?_, ?_⟩
              · intro hand
                exact ProcessState.noConfusion hand.1
              · intro hp
                exact ih2 hp
              · intro hx
                exact ProcessState.noConfusion hx
          | preview_completed =>
              simp only [Lanes.step]
              refine ⟨?_, ?_, ?_⟩
              · intro hand
                exact ProcessState.noConfusion hand.2
              · intro hp
                exact ProcessState.noConfusion hp
              · intro hx
                exact ih3 hx
          | failed =>
              cases hla : s0.lastAction with
              | none =>
                  simp only [Lanes.step, hla]
                  exact ⟨ih1, ih2, ih3⟩
              | some a =>
                  cases a with
                  | exportLane =>
                      simp only [Lanes.step, hla]
                      refine ⟨?_, ?_, ?_⟩
                      · intro hand
                        exact ProcessState.noConfusion hand.1
                      · intro hp
                        exact absurd ((ih2 hp).symm.trans hla) (by decide)
                      · intro hx
                        exact ProcessState.noConfusion hx
                  | preview =>
                      simp only [Lanes.step, hla]
                      refine ⟨?_, ?_, ?_⟩
                      · intro hand
                        exact ProcessState.noConfusion hand.2
                      · intro hp
                        exact ProcessState.noConfusion hp
                      · intro hx
                        exact absurd ((ih3 hx).symm.trans hla) (by decide)
          | processing =>
              cases hla : s0.lastAction with
              | none =>
                  simp only [Lanes.step, hla]
                  exact ⟨ih1, ih2, ih3⟩
              | some a =>
                  cases a with
                  | exportLane =>
                      simp only [Lanes.step, hla]
                      refine ⟨ih1, ?_, fun _ => rfl⟩
                      intro hp
                      exact absurd ((ih2 hp).symm.trans hla) (by decide)
                  | preview =>
                      simp only [Lanes.step, hla]
                      refine ⟨ih1, fun _ => rfl, ?_⟩
                      intro hx
                      exact absurd ((ih3 hx).symm.trans hla) (by decide)
          | preview_processing =>
              cases hla : s0.lastAction with
              | none =>
                  simp only [Lanes.step, hla]
                  exact ⟨ih1, ih2, ih3⟩
              | some a =>
                  cases a with
                  | exportLane =>
                      simp only [Lanes.step, hla]
                      refine ⟨ih1, ?_, fun _ => rfl⟩
                      intro hp
                      exact absurd ((ih2 hp).symm.trans hla) (by decide)
                  | preview =>
                      simp only [Lanes.step, hla]
                      refine ⟨ih1, fun _ => rfl, ?_⟩
                      intro hx
                      exact absurd ((ih3 hx).symm.trans hla) (by decide)
      | pollError =>
          cases hla : s0.lastAction with
          | none =>
              simp only [Lanes.step, hla]
              exact ⟨ih1, ih2, ih3⟩
          | some a =>
              cases a with
              | exportLane =>
                  simp only [Lanes.step, hla]
                  refine ⟨?_, ?_, ?_⟩
                  · intro hand
                    exact ProcessState.noConfusion hand.1
                  · intro hp
                    exact absurd ((ih2 hp).symm.trans hla) (by decide)
                  · intro hx
                    exact ProcessState.noConfusion hx
              | preview =>
                  simp only [Lanes.step, hla]
                  refine ⟨?_, ?_, ?_⟩
                  · intro hand
                    exact ProcessState.noConfusion hand.2
                  · intro hp
                    exact ProcessState.noConfusion hp
                  · intro hx
                    exact absurd ((ih3 hx).symm.trans hla) (by decide)
      | resetExportClick =>
          simp only [Lanes.step]
          refine ⟨?_, ?_, ?_⟩
          · intro hand
            exact ProcessState.noConfusion hand.1
          · intro hp
            exact ih2 hp
          · intro hx
            exact ProcessState.noConfusion hx
      | exitPreviewClick =>
          simp only [Lanes.step]
          exact ⟨ih1, ih2, ih3⟩
      | uploadStart =>
          simp only [Lanes.step, Lanes.resetStateForNewJob]
          refine ⟨?_, ?_, ?_⟩
          · intro hand
            exact ProcessState.noConfusion hand.1
          · intro hp
            exact ProcessState.noConfusion hp
          · intro hx
            exact ProcessState.noConfusion hx
      | uploadDone ok =>
          cases ok with
          | true =>
              simp only [Lanes.step, if_true]
              exact ⟨ih1, ih2, ih3⟩
          | false =>
              simp only [Lanes.step, Bool.false_eq_true, if_false]
              exact ⟨ih1, ih2, ih3⟩

/-- C2: at no reachable client state are the export lane and the
preview-clip lane both in their processing states, and (modelled from the
spec, §4.3) a request to start a lane while one is active is answered with
`Conflict` by the lane arbiter. -/
theorem lanes_mutually_exclusive (s : Lanes.State) (h : Lanes.Reachable s) :
    ¬(s.exportState = ProcessState.processing
        ∧ s.previewGenState = ProcessState.processing)
    ∧ ∀ (active request : Lanes.LaneAction),
        Lanes.startLane (some active) request = Lanes.LaneStartResult.conflict :=
  ⟨(lanes_inv s h).1, fun _ _ => rfl⟩

/-- The sample run state is reachable. -/
theorem sampleLaneRun_reachable : Lanes.Reachable sampleLaneRun :=
  Lanes.Reachable.step
    (Lanes.Reachable.step
      (Lanes.Reachable.step Lanes.Reachable.init (by decide) (by decide))
      (by decide) (by decide))
    (by decide) (by decide)

/-- Witness for C2: a reachable state with the export lane processing. -/
theorem lanes_mutually_exclusive_witness :
    Lanes.Reachable sampleLaneRun
    ∧ (¬(sampleLaneRun.exportState = ProcessState.processing
        ∧ sampleLaneRun.previewGenState = ProcessState.processing)
      ∧ ∀ (active request : Lanes.LaneAction),
          Lanes.startLane (some active) request = Lanes.LaneStartResult.conflict) :=
  ⟨sampleLaneRun_reachable,
    lanes_mutually_exclusive sampleLaneRun sampleLaneRun_reachable⟩

/-- C5: a fresh lane start (export or preview) resets that lane's progress
to 0; a completion poll sets the lane's progress to 100 (the export lane
entering `completed`, the preview lane returning to `idle` with preview mode
active); every non-reset event keeps each lane's progress at most 100 and
never decreases it, given the server's guarantee (modelled from the spec,
§4.3 and §4.4) that polled progress is non-decreasing for the active lane
and at most 100; and the terminal export `completed`/`failed` states and the
preview `failed` state persist under every lane-consistent non-reset event
until an explicit restart or a new upload. -/
theorem lane_progress_monotone (s : Lanes.State) (h : Lanes.Reachable s)
    (e : Lanes.Event) (q : ℚ)
    (henabled : Lanes.enabled s e = true)
    (hconsistent : Lanes.pollConsistent s e = true)
    (hmono : ∀ st p, e = Lanes.Event.poll st p → p ≤ 100
        ∧ (s.lastAction = some Lanes.LaneAction.exportLane → s.exportProgress ≤ p)
        ∧ (s.lastAction = some Lanes.LaneAction.preview → s.previewProgress ≤ p))
    (hbound : s.exportProgress ≤ 100)
    (hboundPrev : s.previewProgress ≤ 100) :
    ((Lanes.step s Lanes.Event.exportClick).exportProgress = 0
      ∧ (Lanes.step s Lanes.Event.previewClick).previewProgress = 0)
    ∧ ((Lanes.step s (Lanes.Event.poll Lanes.PollStatus.completed q)).exportProgress = 100
      ∧ (Lanes.step s (Lanes.Event.poll Lanes.PollStatus.completed q)).exportState
          = ProcessState.completed)
    ∧ ((Lanes.step s
          (Lanes.Event.poll Lanes.PollStatus.preview_completed q)).previewProgress = 100
      ∧ (Lanes.step s
          (Lanes.Event.poll Lanes.PollStatus.preview_completed q)).previewGenState
            = ProcessState.idle
      ∧ (Lanes.step s
          (Lanes.Event.poll Lanes.PollStatus.preview_completed q)).isPreviewModeActive
            = true)
    ∧ (isExportLaneReset e = false →
        s.exportProgress ≤ (Lanes.step s e).exportProgress
        ∧ (Lanes.step s e).exportProgress ≤ 100)
    ∧ (isPreviewLaneReset e = false →
        s.previewProgress ≤ (Lanes.step s e).previewProgress
        ∧ (Lanes.step s e).previewProgress ≤ 100)
    ∧ ((s.exportState = ProcessState.completed ∨ s.exportState = ProcessState.failed) →
        isExportLaneReset e = false →
        (Lanes.step s e).exportState = s.exportState)
    ∧ (s.previewGenState = ProcessState.failed →
        e ≠ Lanes.Event.previewClick → e ≠ Lanes.Event.uploadStart →
        (Lanes.step s e).previewGenState = s.previewGenState) := by
  refine ⟨⟨rfl, rfl⟩, ⟨rfl, rfl⟩, ⟨rfl, rfl, rfl⟩, ?_, ?_, ?_, ?_⟩
  · intro hnr
    cases e with
    | exportClick => exact absurd hnr (by simp [isExportLaneReset])
    | previewClick => exact ⟨le_refl _, hbound⟩
    | exportFetchFailed => exact ⟨le_refl _, hbound⟩
    | previewFetchFailed => exact ⟨le_refl _, hbound⟩
    | poll st p =>
        obtain ⟨hq100, hqExp, hqPrev⟩ := hmono st p rfl
        cases st with
        | completed => exact ⟨hbound, le_refl _⟩
        | preview_completed => exact ⟨le_refl _, hbound⟩
        | failed =>
            cases hla : s.lastAction with
            | none =>
                simp only [Lanes.step, hla]
                exact ⟨le_refl _, hbound⟩
            | some a =>
                cases a <;> simp only [Lanes.step, hla] <;>
                  exact ⟨le_refl _, hbound⟩
        | processing =>
            cases hla : s.lastAction with
            | none =>
                simp only [Lanes.step, hla]
                exact ⟨le_refl _, hbound⟩
            | some a =>
                cases a with
                | preview =>
                    simp only [Lanes.step, hla]
                    exact ⟨le_refl _, hbound⟩
                | exportLane =>
                    simp only [Lanes.step, hla]
                    exact ⟨hqExp hla, hq100⟩
        | preview_processing =>
            cases hla : s.lastAction with
            | none =>
                simp only [Lanes.step, hla]
                exact ⟨le_refl _, hbound⟩
            | some a =>
                cases a with
                | preview =>
                    simp only [Lanes.step, hla]
                    exact ⟨le_refl _, hbound⟩
                | exportLane =>
                    simp only [Lanes.step, hla]
                    exact ⟨hqExp hla, hq100⟩
    | pollError =>
        cases hla : s.lastAction with
        | none =>
            simp only [Lanes.step, hla]
            exact ⟨le_refl _, hbound⟩
        | some a =>
            cases a <;> simp only [Lanes.step, hla] <;>
              exact ⟨le_refl _, hbound⟩
    | resetExportClick => exact absurd hnr (by simp [isExportLaneReset])
    | exitPreviewClick => exact ⟨le_refl _, hbound⟩
    | uploadStart => exact absurd hnr (by simp [isExportLaneReset])
    | uploadDone ok =>
        cases ok with
        | true =>
            simp only [Lanes.step, if_true]
            exact ⟨le_refl _, hbound⟩
        | false =>
            simp only [Lanes.step, Bool.false_eq_true, if_false]
            exact ⟨le_refl _, hbound⟩
  · intro hnr
    cases e with
    | exportClick => exact ⟨le_refl _, hboundPrev⟩
    | previewClick => exact absurd hnr (by simp [isPreviewLaneReset])
    | exportFetchFailed => exact ⟨le_refl _, hboundPrev⟩
    | previewFetchFailed => exact ⟨le_refl _, hboundPrev⟩
    | poll st p =>
        obtain ⟨hq100, hqExp, hqPrev⟩ := hmono st p rfl
        cases st with
        | completed => exact ⟨le_refl _, hboundPrev⟩
        | preview_completed => exact ⟨hboundPrev, le_refl _⟩
        | failed =>
            cases hla : s.lastAction with
            | none =>
                simp only [Lanes.step, hla]
                exact ⟨le_refl _, hboundPrev⟩
            | some a =>
                cases a <;> simp only [Lanes.step, hla] <;>
                  exact ⟨le_refl _, hboundPrev⟩
        | processing =>
            cases hla : s.lastAction with
            | none =>
                simp only [Lanes.step, hla]
                exact ⟨le_refl _, hboundPrev⟩
            | some a =>
                cases a with
                | preview =>
                    simp only [Lanes.step, hla]
                    exact ⟨hqPrev hla, hq100⟩
                | exportLane =>
                    simp only [Lanes.step, hla]
                    exact ⟨le_refl _, hboundPrev⟩
        | preview_processing =>
            cases hla : s.lastAction with
            | none =>
                simp only [Lanes.step, hla]
                exact ⟨le_refl _, hboundPrev⟩
            | some a =>
                cases a with
                | preview =>
                    simp only [Lanes.step, hla]
                    exact ⟨hqPrev hla, hq100⟩
                | exportLane =>
                    simp only [Lanes.step, hla]
                    exact ⟨le_refl _, hboundPrev⟩
    | pollError =>
        cases hla : s.lastAction with
        | none =>
            simp only [Lanes.step, hla]
            exact ⟨le_refl _, hboundPrev⟩
        | some a =>
            cases a <;> simp only [Lanes.step, hla] <;>
              exact ⟨le_refl _, hboundPrev⟩
    | resetExportClick => exact ⟨le_refl _, hboundPrev⟩
    | exitPreviewClick => exact ⟨le_refl _, hboundPrev⟩
    | uploadStart => exact ⟨le_refl _, hboundPrev⟩
    | uploadDone ok =>
        cases ok with
        | true =>
            simp only [Lanes.step, if_true]
            exact ⟨le_refl _, hboundPrev⟩
        | false =>
            simp only [Lanes.step, Bool.false_eq_true, if_false]
            exact ⟨le_refl _, hboundPrev⟩
  · intro hterm hnr
    have hnotproc : s.exportState ≠ ProcessState.processing := by
      intro hc
      rw [hc] at hterm
      rcases hterm with hx | hx <;> exact ProcessState.noConfusion hx
    cases e with
    | exportClick => exact absurd hnr (by simp [isExportLaneReset])
    | previewClick => rfl
    | exportFetchFailed =>
        simp only [Lanes.enabled, beq_iff_eq] at henabled
        exact absurd henabled hnotproc
    | previewFetchFailed => rfl
    | poll st p =>
        have hprev : s.previewGenState = ProcessState.processing := by
          simp only [Lanes.enabled, Bool.or_eq_true, beq_iff_eq] at henabled
          rcases henabled with hx | hx
          · exact hx
          · exact absurd hx hnotproc
        have hla : s.lastAction = some Lanes.LaneAction.preview :=
          (lanes_inv s h).2.1 hprev
        cases st with
        | completed =>
            rw [show Lanes.pollConsistent s
                (Lanes.Event.poll Lanes.PollStatus.completed p)
                  = false by simp [Lanes.pollConsistent, hla]] at hconsistent
            exact Bool.noConfusion hconsistent
        | processing =>
            rw [show Lanes.pollConsistent s
                (Lanes.Event.poll Lanes.PollStatus.processing p)
                  = false by simp [Lanes.pollConsistent, hla]] at hconsistent
            exact Bool.noConfusion hconsistent
        | preview_processing =>
            simp only [Lanes.step, hla]
        | preview_completed =>
            simp only [Lanes.step, hla]
        | failed =>
            simp only [Lanes.step, hla]
    | pollError =>
        have hprev : s.previewGenState = ProcessState.processing := by
          simp only [Lanes.enabled, Bool.or_eq_true, beq_iff_eq] at henabled
          rcases henabled with hx | hx
          · exact hx
          · exact absurd hx hnotproc
        have hla : s.lastAction = some Lanes.LaneAction.preview :=
          (lanes_inv s h).2.1 hprev
        simp only [Lanes.step, hla]
    | resetExportClick => exact absurd hnr (by simp [isExportLaneReset])
    | exitPreviewClick => rfl
    | uploadStart => exact absurd hnr (by simp [isExportLaneReset])
    | uploadDone ok =>
        cases ok with
        | true => rfl
        | false => rfl
  · intro hfail hne1 hne2
    have hnotprev : s.previewGenState ≠ ProcessState.processing := by
      intro hc
      rw [hfail] at hc
      exact ProcessState.noConfusion hc
    cases e with
    | exportClick => rfl
    | previewClick => exact absurd rfl hne1
    | exportFetchFailed => rfl
    | previewFetchFailed =>
        simp only [Lanes.enabled, beq_iff_eq] at henabled
        exact absurd henabled hnotprev
    | poll st p =>
        have hexp : s.exportState = ProcessState.processing := by
          simp only [Lanes.enabled, Bool.or_eq_true, beq_iff_eq] at henabled
          rcases henabled with hx | hx
          · exact absurd hx hnotprev
          · exact hx
        have hla : s.lastAction = some Lanes.LaneAction.exportLane :=
          (lanes_inv s h).2.2 hexp
        cases st with
        | preview_processing =>
            rw [show Lanes.pollConsistent s
                (Lanes.Event.poll Lanes.PollStatus.preview_processing p)
                  = false by simp [Lanes.pollConsistent, hla]] at hconsistent
            exact Bool.noConfusion hconsistent
        | preview_completed =>
            rw [show Lanes.pollConsistent s
                (Lanes.Event.poll Lanes.PollStatus.preview_completed p)
                  = false by simp [Lanes.pollConsistent, hla]] at hconsistent
            exact Bool.noConfusion hconsistent
        | processing =>
            simp only [Lanes.step, hla]
        | completed =>
            simp only [Lanes.step, hla]
        | failed =>
            simp only [Lanes.step, hla]
    | pollError =>
        have hexp : s.exportState = ProcessState.processing := by
          simp only [Lanes.enabled, Bool.or_eq_true, beq_iff_eq] at henabled
          rcases henabled with hx | hx
          · exact absurd hx hnotprev
          · exact hx
        have hla : s.lastAction = some Lanes.LaneAction.exportLane :=
          (lanes_inv s h).2.2 hexp
        simp only [Lanes.step, hla]
    | resetExportClick => rfl
    | exitPreviewClick => rfl
    | uploadStart => exact absurd rfl hne2
    | uploadDone ok =>
        cases ok with
        | true => rfl
        | false => rfl

/-- Witness for C5: the reachable state with the export lane freshly started
(progress 0) receiving a consistent, monotone progress poll of 50. -/
theorem lane_progress_monotone_witness :
    Lanes.Reachable sampleLaneRun
    ∧ Lanes.enabled sampleLaneRun (Lanes.Event.poll Lanes.PollStatus.processing 50) = true
    ∧ Lanes.pollConsistent sampleLaneRun
        (Lanes.Event.poll Lanes.PollStatus.processing 50) = true
    ∧ (∀ st p, Lanes.Event.poll Lanes.PollStatus.processing 50 = Lanes.Event.poll st p →
        p ≤ 100
        ∧ (sampleLaneRun.lastAction = some Lanes.LaneAction.exportLane →
            sampleLaneRun.exportProgress ≤ p)
        ∧ (sampleLaneRun.lastAction = some Lanes.LaneAction.preview →
            sampleLaneRun.previewProgress ≤ p))
    ∧ sampleLaneRun.exportProgress ≤ 100
    ∧ sampleLaneRun.previewProgress ≤ 100
    ∧ (((Lanes.step sampleLaneRun Lanes.Event.exportClick).exportProgress = 0
        ∧ (Lanes.step sampleLaneRun Lanes.Event.previewClick).previewProgress = 0)
      ∧ ((Lanes.step sampleLaneRun
            (Lanes.Event.poll Lanes.PollStatus.completed 7)).exportProgress = 100
        ∧ (Lanes.step sampleLaneRun
            (Lanes.Event.poll Lanes.PollStatus.completed 7)).exportState
              = ProcessState.completed)
      ∧ ((Lanes.step sampleLaneRun
            (Lanes.Event.poll Lanes.PollStatus.preview_completed 7)).previewProgress = 100
        ∧ (Lanes.step sampleLaneRun
            (Lanes.Event.poll Lanes.PollStatus.preview_completed 7)).previewGenState
              = ProcessState.idle
        ∧ (Lanes.step sampleLaneRun
            (Lanes.Event.poll Lanes.PollStatus.preview_completed 7)).isPreviewModeActive
              = true)
      ∧ (isExportLaneReset (Lanes.Event.poll Lanes.PollStatus.processing 50) = false →
          sampleLaneRun.exportProgress
              ≤ (Lanes.step sampleLaneRun
                  (Lanes.Event.poll Lanes.PollStatus.processing 50)).exportProgress
          ∧ (Lanes.step sampleLaneRun
              (Lanes.Event.poll Lanes.PollStatus.processing 50)).exportProgress ≤ 100)
      ∧ (isPreviewLaneReset (Lanes.Event.poll Lanes.PollStatus.processing 50) = false →
          sampleLaneRun.previewProgress
              ≤ (Lanes.step sampleLaneRun
                  (Lanes.Event.poll Lanes.PollStatus.processing 50)).previewProgress
          ∧ (Lanes.step sampleLaneRun
              (Lanes.Event.poll Lanes.PollStatus.processing 50)).previewProgress ≤ 100)
      ∧ ((sampleLaneRun.exportState = ProcessState.completed
            ∨ sampleLaneRun.exportState = ProcessState.failed) →
          isExportLaneReset (Lanes.Event.poll Lanes.PollStatus.processing 50) = false →
          (Lanes.step sampleLaneRun
              (Lanes.Event.poll Lanes.PollStatus.processing 50)).exportState
            = sampleLaneRun.exportState)
      ∧ (sampleLaneRun.previewGenState = ProcessState.failed →
          Lanes.Event.poll Lanes.PollStatus.processing 50 ≠ Lanes.Event.previewClick →
          Lanes.Event.poll Lanes.PollStatus.processing 50 ≠ Lanes.Event.uploadStart →
          (Lanes.step sampleLaneRun
              (Lanes.Event.poll Lanes.PollStatus.processing 50)).previewGenState
            = sampleLaneRun.previewGenState)) :=
  ⟨sampleLaneRun_reachable, by decide, by decide,
    fun st p hp => by
      cases hp
      exact ⟨by decide, fun _ => by decide, fun _ => by decide⟩,
    by decide, by decide,
    lane_progress_monotone sampleLaneRun sampleLaneRun_reachable
      (Lanes.Event.poll Lanes.PollStatus.processing 50) 7 (by decide) (by decide)
      (fun st p hp => by
        cases hp
        exact ⟨by decide, fun _ => by decide, fun _ => by decide⟩)
      (by decide) (by decide)⟩

/-- Witness for C10 at a concrete two-entry history with index 1. -/
theorem history_index_and_undo_redo_witness :
    Hist.Reachable sampleHistState
    ∧ ((0 ≤ sampleHistState.historyIndex
        ∧ sampleHistState.historyIndex < (sampleHistState.history.length : ℤ))
      ∧ (∀ fg bg, (Hist.pushHistory sampleHistState fg bg).historyIndex
          = ((Hist.pushHistory sampleHistState fg bg).history.length : ℤ) - 1)
      ∧ (0 < sampleHistState.historyIndex →
          Hist.redo (Hist.undo sampleHistState) = sampleHistState)) :=
  ⟨Hist.Reachable.push _ _ (Hist.Reachable.init _ _),
    history_index_and_undo_redo sampleHistState
      (Hist.Reachable.push _ _ (Hist.Reachable.init _ _))⟩

end GreenScreenStudio
